import Mathlib

/-!
Verification of the batch enrichment pipeline in `laximo_cross_updater.py`.

The development shallowly embeds the two components of the script:

* `LaximoAPI` (`find_oem`, `find_replacements`): the remote call plus XML
  parsing is abstracted by a `fetch` oracle returning either a transport
  error, an unparseable response, or the list of parsed element nodes
  (tag plus attribute dictionary) of the response document; the two client
  functions fold the try/except blocks of the source into a total match.

* `ExcelProcessor.process_file`: rows are modelled positionally.  The
  article cell (column 4) is an optional string, the description cell
  (column 6) is a `CellVal` which may also hold a non-string value (the
  one realistic source of an uncaught per-row exception: Python raises
  `AttributeError` on `current_description.rstrip()` when the cell holds a
  number).  The per-row body `processRowBody` mirrors lines 198-264 of the
  source, returning `Except` for the try-block and the list of remote
  calls it issues.  The driver `processRows`/`process_file` mirrors the
  row loop: the `except` branch turns a raised error into the error
  counter, `continue` paths skip the `processed_rows` increment and the
  checkpoint block, and an event trace records row outcomes and workbook
  saves (path plus final flag).

Python's `set` of cross numbers followed by `sorted` is modelled by
accumulating the codes in a list and sorting its deduplication; both
yield the unique sorted listing of the accumulated code set.  String
order is Python's code-point lexicographic order, defined here on
`String.data` so that it evaluates inside the kernel.
-/

namespace Laximo

/-! ### Python string primitives over `List Char` -/

/-- Code-point lexicographic `≤` on character lists, as Python compares
strings. -/
def charListLe : List Char → List Char → Bool
  | [], _ => true
  | _ :: _, [] => false
  | a :: as, b :: bs =>
    if a.toNat < b.toNat then true
    else if b.toNat < a.toNat then false
    else charListLe as bs

/-- Python's string `<=` (code-point lexicographic order). -/
def strLe (s t : String) : Prop := charListLe s.data t.data = true

instance : DecidableRel strLe := fun _ _ => instDecidableEqBool _ _

/-- Python `str.isspace()` for one character: the Unicode whitespace
class stripped by argumentless `str.strip()`/`str.rstrip()` — the ASCII
and C1 whitespace controls (U+0009..U+000D, U+001C..U+001F, U+0020,
U+0085), no-break and Ogham spaces (U+00A0, U+1680), the U+2000..U+200A
spaces, line/paragraph separators (U+2028, U+2029), and the narrow,
mathematical and ideographic spaces (U+202F, U+205F, U+3000). -/
def pyIsSpace (c : Char) : Bool :=
  (0x09 ≤ c.toNat && c.toNat ≤ 0x0d) ||
  (0x1c ≤ c.toNat && c.toNat ≤ 0x20) ||
  c.toNat == 0x85 || c.toNat == 0xa0 || c.toNat == 0x1680 ||
  (0x2000 ≤ c.toNat && c.toNat ≤ 0x200a) ||
  c.toNat == 0x2028 || c.toNat == 0x2029 || c.toNat == 0x202f ||
  c.toNat == 0x205f || c.toNat == 0x3000

/-- `l` with trailing whitespace characters removed. -/
def dropTrailingWs (l : List Char) : List Char :=
  (l.reverse.dropWhile pyIsSpace).reverse

/-- Python `str.rstrip()`. -/
def pyRstrip (s : String) : String := ⟨dropTrailingWs s.data⟩

/-- Python `str.strip()`. -/
def pyStrip (s : String) : String :=
  ⟨dropTrailingWs (s.data.dropWhile pyIsSpace)⟩

/-- Last character of a string, if any (used for `str.endswith` with
single-character suffixes). -/
def lastChar (s : String) : Option Char := s.data.getLast?

/-- Index of the last occurrence of `c` in `l`, Python `str.rfind`. -/
def rfindIdx (c : Char) (l : List Char) : Option Nat :=
  l.enum.foldl (fun acc p => if p.2 == c then some p.1 else acc) none

/-- Helper for `splitext`: split `p` at character index `d` when the
basename (starting at `sepStart`) does not consist solely of dots up to
`d`. -/
def splitextAux (p : String) (d sepStart : Nat) : String × String :=
  if sepStart ≤ d then
    if ((p.data.drop sepStart).take (d - sepStart)).any (fun ch => ch != '.') then
      (⟨p.data.take d⟩, ⟨p.data.drop d⟩)
    else (p, "")
  else (p, "")

/-- `os.path.splitext` (posix, no alternate separator): split at the last
dot of the last path component, unless that component consists solely of
leading dots up to it. -/
def splitext (p : String) : String × String :=
  match rfindIdx '.' p.data with
  | none => (p, "")
  | some d =>
    match rfindIdx '/' p.data with
    | none => splitextAux p d 0
    | some i => splitextAux p d (i + 1)

/-! ### LookupClient: `LaximoAPI.find_oem` / `LaximoAPI.find_replacements` -/

/-- A parsed element node of the response document: tag name and
attribute dictionary (`detail.get(k)` is `Option`-valued). -/
structure XmlNode where
  tag : String
  attrs : List (String × String)
deriving DecidableEq

/-- Outcome of `session.get` + `raise_for_status` + `ET.fromstring`:
either a transport error (`requests.exceptions.RequestException`), an
unparseable body (`ET.ParseError`), or the element nodes of the parsed
document in document order. -/
inductive RemoteResult where
  | transportError
  | malformed
  | ok (nodes : List XmlNode)
deriving DecidableEq

/-- A request: query parameter key and its pipe-delimited argument
string. -/
abbrev ApiReq := String × String

/-- The `FindOEM` request of `find_oem`. -/
def findOemReq (oem : String) : ApiReq :=
  ("FindOEM", "Locale=ru_RU|OEM=" ++ oem ++ "|ReplacementTypes=|Options=")

/-- The `FindReplacements` request of `find_replacements`. -/
def findReplacementsReq (detail_id : String) : ApiReq :=
  ("FindReplacements", "Locale=ru_RU|DetailId=" ++ detail_id)

/-- `PartRecord`: one entry built by `find_oem` from a `detail` node. -/
structure Detail where
  detailid : Option String
  manufacturer : Option String
  oem : Option String
  formattedoem : Option String
  name : Option String
deriving DecidableEq

/-- `ReplacementRecord`: one entry built by `find_replacements` from a
`row` node. -/
structure Replacement where
  manufacturer : Option String
  oem : Option String
  formattedoem : Option String
  name : Option String
  rate : Option String
deriving DecidableEq

/-- `node.get(key)` on the attribute dictionary. -/
def attr (n : XmlNode) (key : String) : Option String := n.attrs.lookup key

/-- The record built from one `detail` element (source lines 66-72). -/
def detailOfNode (n : XmlNode) : Detail :=
  { detailid := attr n "detailid"
    manufacturer := attr n "manufacturer"
    oem := attr n "oem"
    formattedoem := attr n "formattedoem"
    name := attr n "name" }

/-- The record built from one `row` element (source lines 107-113). -/
def replacementOfNode (n : XmlNode) : Replacement :=
  { manufacturer := attr n "manufacturer"
    oem := attr n "oem"
    formattedoem := attr n "formattedoem"
    name := attr n "name"
    rate := attr n "rate" }

/-- `LaximoAPI.find_oem` (source lines 43-82): on transport error or
parse error the except branches return `[]`; otherwise every
`.//detail` node is mapped to a `Detail`. -/
def find_oem (fetch : ApiReq → RemoteResult) (oem : String) : List Detail :=
  match fetch (findOemReq oem) with
  | .transportError => []
  | .malformed => []
  | .ok nodes => (nodes.filter (fun n => n.tag == "detail")).map detailOfNode

/-- `LaximoAPI.find_replacements` (source lines 84-123): same shape over
`.//row` nodes. -/
def find_replacements (fetch : ApiReq → RemoteResult) (detail_id : String) :
    List Replacement :=
  match fetch (findReplacementsReq detail_id) with
  | .transportError => []
  | .malformed => []
  | .ok nodes => (nodes.filter (fun n => n.tag == "row")).map replacementOfNode

/-! ### EnrichmentPipeline: `ExcelProcessor.process_file` -/

/-- The API object handed to `process_file`: both methods always return a
list (the client absorbs its failures). -/
structure Api where
  find_oem : String → List Detail
  find_replacements : String → List Replacement

/-- The `Api` realized by the lookup client over a fetch oracle. -/
def Api.ofFetch (fetch : ApiReq → RemoteResult) : Api :=
  ⟨Laximo.find_oem fetch, Laximo.find_replacements fetch⟩

/-- A description cell value (column 6): empty (`None`), a string, or a
non-string value (truthy in Python; `.rstrip()` on it raises
`AttributeError`). -/
inductive CellVal where
  | none
  | str (s : String)
  | nonstr
deriving DecidableEq, Inhabited

/-- One data row of the sheet: article cell (column 4, text or empty) and
description cell (column 6). -/
structure Row where
  article : Option String
  description : CellVal
deriving DecidableEq, Inhabited

/-- An uncaught Python exception inside the per-row try block. -/
inductive PyErr where
  | attributeError
deriving DecidableEq

/-- Result of the per-row try block when it does not raise: one of the
three `continue` paths (`noData`) or the successful write of a new
description. -/
inductive RowOutcome where
  | noData
  | success (newDescription : String)
deriving DecidableEq

/-- A remote call issued while processing one row. -/
inductive ApiCall where
  | findOem (oem : String)
  | findReplacements (detail_id : String)
deriving DecidableEq

/-- `sorted(all_cross_numbers)` where `all_cross_numbers` is the set of
accumulated codes: the unique ascending listing of the accumulated
list's elements. -/
def sortedCrossList (codes : List String) : List String :=
  List.insertionSort strLe codes.dedup

/-- `", ".join(sorted(all_cross_numbers))` (source line 247). -/
def crossNumbersText (codes : List String) : String :=
  String.intercalate ", " (sortedCrossList codes)

/-- The codes contributed by one replacement list (source lines 236-239):
a record contributes its `formattedoem` exactly when that attribute is
present and truthy. -/
def crossesOfReplacements (reps : List Replacement) : List String :=
  reps.filterMap (fun r =>
    match r.formattedoem with
    | none => none
    | some f => if f == "" then none else some f)

/-- One iteration of the detail loop (source lines 226-239): details with
an absent or empty `detailid` are skipped; otherwise the replacements of
that `detailid` are fetched and their codes accumulated. -/
def crossStep (api : Api) (acc : List String) (d : Detail) : List String :=
  match d.detailid with
  | none => acc
  | some detail_id =>
    if detail_id == "" then acc
    else acc ++ crossesOfReplacements (api.find_replacements detail_id)

/-- The codes accumulated into `all_cross_numbers` (source lines
224-239). -/
def collectCrosses (api : Api) (details : List Detail) : List String :=
  details.foldl (crossStep api) []

/-- The `find_replacements` calls issued for a detail list (one per
truthy `detailid`). -/
def replacementCalls (details : List Detail) : List ApiCall :=
  details.filterMap (fun d =>
    match d.detailid with
    | none => Option.none
    | some detail_id =>
      if detail_id == "" then Option.none
      else some (ApiCall.findReplacements detail_id))

/-- Source lines 250-258: `current_description = cell or ""`; if truthy,
append `", "` unless `current_description.rstrip().endswith((",", " "))`,
then concatenate the rendered cross text; a non-string cell raises on
`.rstrip()`. -/
def mergeDescription (desc : CellVal) (cross_text : String) :
    Except PyErr String :=
  match desc with
  | .nonstr => .error .attributeError
  | .none => .ok cross_text
  | .str s =>
    if s == "" then .ok cross_text
    else
      let stripped := pyRstrip s
      let s' :=
        if !(lastChar stripped == some ',' || lastChar stripped == some ' ')
        then s ++ ", " else s
      .ok (s' ++ cross_text)

/-- The per-row try block, source lines 198-264, with the remote calls it
issues.  The three `continue` paths yield `noData`; a raised exception
yields `.error`. -/
def processRowBody (api : Api) (row : Row) :
    Except PyErr RowOutcome × List ApiCall :=
  match row.article with
  | Option.none => (.ok .noData, [])
  | some cell =>
    if cell == "" then (.ok .noData, [])
    else
      let article := pyStrip cell
      let details := api.find_oem article
      let calls := ApiCall.findOem article :: replacementCalls details
      if details.isEmpty then (.ok .noData, calls)
      else
        let crosses := collectCrosses api details
        if crosses.isEmpty then (.ok .noData, calls)
        else
          match mergeDescription row.description (crossNumbersText crosses) with
          | .ok nd => (.ok (.success nd), calls)
          | .error e => (.error e, calls)

/-- Classification of a row as it is counted by the loop: `noData`
(`continue` paths), `success`, or `error` (except branch). -/
inductive ROut where
  | noData
  | success
  | error
deriving DecidableEq

/-- Which counter the row increments. -/
def classifyRow (api : Api) (row : Row) : ROut :=
  match (processRowBody api row).1 with
  | .ok .noData => .noData
  | .ok (.success _) => .success
  | .error _ => .error

/-- Effect of processing one row on the sheet: only a successful row
writes its new description into column 6 (source line 261). -/
def applyRow (api : Api) (row : Row) : Row :=
  match (processRowBody api row).1 with
  | .ok (.success nd) => { row with description := .str nd }
  | _ => row

/-- `RunStatistics` counters of `ExcelProcessor`. -/
structure Stats where
  processed_rows : Nat
  success_count : Nat
  error_count : Nat
  no_data_count : Nat
deriving DecidableEq

def Stats.init : Stats := ⟨0, 0, 0, 0⟩

/-- Whether the row reaches `processed_rows += 1` (line 270): `continue`
paths do not. -/
def countedB : ROut → Bool
  | .noData => false
  | .success => true
  | .error => true

/-- Counter update for one row: `noData` bumps `no_data_count` and skips
`processed_rows`; the other outcomes bump their counter and
`processed_rows`. -/
def bumpStats (s : Stats) : ROut → Stats
  | .noData => { s with no_data_count := s.no_data_count + 1 }
  | .success =>
    { s with success_count := s.success_count + 1
             processed_rows := s.processed_rows + 1 }
  | .error =>
    { s with error_count := s.error_count + 1
             processed_rows := s.processed_rows + 1 }

/-- Observable events of a run: a visited row with its outcome, and a
workbook save with its path and final flag. -/
inductive Event where
  | row (idx : Nat) (outcome : ROut)
  | save (path : String) (final : Bool)
deriving DecidableEq

/-- `save_workbook` path selection (source lines 160-174): intermediate
saves insert `_temp` before the extension of the output path. -/
def checkpointPath (output_file : String) : String :=
  (splitext output_file).1 ++ "_temp" ++ (splitext output_file).2

/-- The path written by `save_workbook is_final`. -/
def save_path (output_file : String) (is_final : Bool) : String :=
  cond is_final output_file (checkpointPath output_file)

/-- Result of a run: the sheet's data rows, the final counters and the
event trace. -/
structure RunResult where
  rows : List Row
  stats : Stats
  trace : List Event
deriving DecidableEq

/-- The row loop, source lines 197-282: each row is classified by the
try/except, counters are bumped, and when the row was counted and
`processed_rows % interval == 0` an intermediate save is emitted before
the next row. -/
def processRows (api : Api) (interval : Nat) (output_file : String) :
    List Row → Nat → Stats → RunResult
  | [], _, stats => ⟨[], stats, []⟩
  | row :: rest, idx, stats =>
    let o := classifyRow api row
    let stats' := bumpStats stats o
    let evs :=
      Event.row idx o ::
        (if countedB o && (stats'.processed_rows % interval == 0)
         then [Event.save (save_path output_file false) false] else [])
    let r := processRows api interval output_file rest (idx + 1) stats'
    ⟨applyRow api row :: r.rows, r.stats, evs ++ r.trace⟩

/-- `ExcelProcessor.process_file` after a successful load: data rows are
iterated from sheet row 2, and a final save to the canonical output path
follows the loop (source line 285). -/
def process_file (api : Api) (interval : Nat) (output_file : String)
    (rows : List Row) : RunResult :=
  let r := processRows api interval output_file rows 2 Stats.init
  ⟨r.rows, r.stats, r.trace ++ [Event.save (save_path output_file true) true]⟩

/-- `SAVE_INTERVAL` of the source (line 34); the theorems are stated for
an arbitrary interval, which instantiates to this constant. -/
def SAVE_INTERVAL : Nat := 100

/-! ### Spec-side counting functions used to state the claims -/

/-- Number of rows of `rows` classified as `o`. -/
def outcomeCount (api : Api) (o : ROut) (rows : List Row) : Nat :=
  rows.countP (fun r => classifyRow api r == o)

/-- Number of rows of `rows` that reach `processed_rows += 1`. -/
def processedCount (api : Api) (rows : List Row) : Nat :=
  rows.countP (fun r => countedB (classifyRow api r))

/-- Closed-form characterisation of the loop trace from row index `idx`
with `p0` rows already processed: row `j` contributes its row event,
followed by an intermediate save exactly when the row was counted and the
processed-row count over the first `j + 1` rows lands on a multiple of
the interval. -/
def traceSpecFrom (api : Api) (interval : Nat) (chk : String)
    (idx : Nat) (p0 : Nat) (rows : List Row) : List Event :=
  (List.range rows.length).flatMap (fun j =>
    Event.row (idx + j) (classifyRow api (rows.getD j default)) ::
      (if countedB (classifyRow api (rows.getD j default)) &&
          ((p0 + processedCount api (rows.take (j + 1))) % interval == 0)
       then [Event.save chk false] else []))

/-- Closed-form characterisation of a full run's trace. -/
def traceSpec (api : Api) (interval : Nat) (output_file : String)
    (rows : List Row) : List Event :=
  traceSpecFrom api interval (checkpointPath output_file) 2 0 rows ++
    [Event.save output_file true]

/-- Equality of fallible results is decidable (used to evaluate the
model on concrete inputs). -/
instance instDecEqExcept {ε α : Type} [DecidableEq ε] [DecidableEq α] :
    DecidableEq (Except ε α) := fun x y =>
  match x, y with
  | Except.error a, Except.error b =>
    if h : a = b then isTrue (by rw [h])
    else isFalse (fun hh => h (Except.error.inj hh))
  | Except.ok a, Except.ok b =>
    if h : a = b then isTrue (by rw [h])
    else isFalse (fun hh => h (Except.ok.inj hh))
  | Except.error _, Except.ok _ => isFalse (fun hh => Except.noConfusion hh)
  | Except.ok _, Except.error _ => isFalse (fun hh => Except.noConfusion hh)

/-! ### Spec-side definitions used to state the claims -/

/-- Componentwise order on the counters ("counters never decrease"). -/
def Stats.le (a b : Stats) : Prop :=
  a.processed_rows ≤ b.processed_rows ∧ a.success_count ≤ b.success_count ∧
    a.error_count ≤ b.error_count ∧ a.no_data_count ≤ b.no_data_count

/-- Saves to the path `p`, of either kind. -/
def isSaveTo (p : String) : Event → Bool := fun e =>
  match e with
  | Event.save q _ => q == p
  | _ => false

/-- Intermediate (non-final) save events. -/
def isChkSave : Event → Bool := fun e =>
  match e with
  | Event.save _ false => true
  | _ => false

/-- Modelled from the spec: the merge rule as claim C3 words it — append
`", "` unless the description already ends in whitespace or a comma;
an empty description is replaced by the rendered string.  Stated for
comparison with `mergeDescription`, the rule implemented by the code. -/
def specMergeClaim (desc : String) (cross_text : String) : String :=
  if desc = "" then cross_text
  else if (match desc.data.getLast? with
           | some c => c == ',' || pyIsSpace c
           | Option.none => false) then desc ++ cross_text
  else (desc ++ ", ") ++ cross_text

/-! ### Concrete fixtures for the scenario claim and the witnesses -/

/-- Oracle of the spec's end-to-end scenario: `"12345"` resolves to
`["d1", "d2"]`; `d1` yields codes `["X2", "X1"]`, `d2` yields
`["X1", "X3"]`. -/
def scenApi : Api :=
  { find_oem := fun code =>
      if code == "12345" then
        [⟨some "d1", Option.none, Option.none, Option.none, Option.none⟩,
         ⟨some "d2", Option.none, Option.none, Option.none, Option.none⟩]
      else []
    find_replacements := fun detail_id =>
      if detail_id == "d1" then
        [⟨Option.none, Option.none, some "X2", Option.none, Option.none⟩,
         ⟨Option.none, Option.none, some "X1", Option.none, Option.none⟩]
      else if detail_id == "d2" then
        [⟨Option.none, Option.none, some "X1", Option.none, Option.none⟩,
         ⟨Option.none, Option.none, some "X3", Option.none, Option.none⟩]
      else [] }

/-- The scenario row: source code `"12345"`, empty description. -/
def scenRow : Row := ⟨some "12345", CellVal.none⟩

/-- A row whose description cell holds a non-string value: the merge
phase raises `AttributeError` on it once cross numbers were found. -/
def errRow : Row := ⟨some "12345", CellVal.nonstr⟩

/-- A row with an absent article cell. -/
def blankRow : Row := ⟨Option.none, CellVal.none⟩

/-- An oracle whose replacement records all lack a usable
`formattedoem`. -/
def badApi : Api :=
  { find_oem := fun _ =>
      [⟨some "d1", Option.none, Option.none, Option.none, Option.none⟩]
    find_replacements := fun _ =>
      [⟨Option.none, Option.none, some "", Option.none, Option.none⟩,
       ⟨Option.none, Option.none, Option.none, Option.none, Option.none⟩] }

/-! ### Order properties of `strLe` -/

theorem charToNat_inj {a b : Char} (h : a.toNat = b.toNat) : a = b :=
  Char.ext (UInt32.ext h)

theorem charListLe_total : ∀ a b : List Char,
    charListLe a b = true ∨ charListLe b a = true := by
  intro a
  induction a with
  | nil => intro b; left; rfl
  | cons x xs ih =>
    intro b
    cases b with
    | nil => right; rfl
    | cons y ys =>
      simp only [charListLe]
      by_cases h1 : x.toNat < y.toNat
      · left; simp [h1]
      · by_cases h2 : y.toNat < x.toNat
        · right; simp [h2]
        · rcases ih ys with h3 | h3
          · left; simp [h1, h2, h3]
          · right; simp [h1, h2, h3]

theorem charListLe_trans : ∀ a b c : List Char,
    charListLe a b = true → charListLe b c = true →
    charListLe a c = true := by
  intro a
  induction a with
  | nil => intro b c _ _; rfl
  | cons x xs ih =>
    intro b c hab hbc
    cases b with
    | nil => simp [charListLe] at hab
    | cons y ys =>
      cases c with
      | nil => simp [charListLe] at hbc
      | cons z zs =>
        simp only [charListLe] at hab hbc ⊢
        by_cases h1 : x.toNat < y.toNat
        · by_cases h2 : y.toNat < z.toNat
          · have h : x.toNat < z.toNat := by omega
            simp [h]
          · by_cases h3 : z.toNat < y.toNat
            · simp [h2, h3] at hbc
            · have h : x.toNat < z.toNat := by omega
              simp [h]
        · by_cases h4 : y.toNat < x.toNat
          · simp [h1, h4] at hab
          · by_cases h2 : y.toNat < z.toNat
            · have h : x.toNat < z.toNat := by omega
              simp [h]
            · by_cases h3 : z.toNat < y.toNat
              · simp [h2, h3] at hbc
              · have h5 : ¬ x.toNat < z.toNat := by omega
                have h6 : ¬ z.toNat < x.toNat := by omega
                simp only [h1, h4, if_false, ite_false, if_neg] at hab
                simp only [h2, h3, if_false, ite_false, if_neg] at hbc
                simp [h5, h6, ih ys zs hab hbc]

theorem charListLe_antisymm : ∀ a b : List Char,
    charListLe a b = true → charListLe b a = true → a = b := by
  intro a
  induction a with
  | nil =>
    intro b _ hba
    cases b with
    | nil => rfl
    | cons y ys => simp [charListLe] at hba
  | cons x xs ih =>
    intro b hab hba
    cases b with
    | nil => simp [charListLe] at hab
    | cons y ys =>
      simp only [charListLe] at hab hba
      by_cases h1 : x.toNat < y.toNat
      · have h2 : ¬ y.toNat < x.toNat := by omega
        simp [h1, h2] at hba
      · by_cases h2 : y.toNat < x.toNat
        · simp [h1, h2] at hab
        · simp only [h1, h2, if_false, ite_false, if_neg] at hab hba
          have hx : x = y := charToNat_inj (by omega)
          rw [hx, ih ys hab hba]

theorem string_data_inj {s t : String} (h : s.data = t.data) : s = t := by
  cases s
  cases t
  exact congrArg String.mk h

instance : IsTotal String strLe :=
  ⟨fun s t => charListLe_total s.data t.data⟩

instance : IsTrans String strLe :=
  ⟨fun s t u hst htu => charListLe_trans s.data t.data u.data hst htu⟩

instance : IsAntisymm String strLe :=
  ⟨fun s t hst hts => string_data_inj (charListLe_antisymm s.data t.data hst hts)⟩

/-- Sanity check: the fan-out of the spec scenario renders in ascending
order without duplicates. -/
example : crossNumbersText ["X2", "X1", "X1", "X3"] = "X1, X2, X3" := by decide

/-! ### Path lemmas -/

theorem str_data_append (a b : String) : (a ++ b).data = a.data ++ b.data := rfl

theorem splitextAux_data (p : String) (d sepStart : Nat) :
    (splitextAux p d sepStart).1.data ++ (splitextAux p d sepStart).2.data =
      p.data := by
  unfold splitextAux
  split
  · split
    · simp [List.take_append_drop d p.data]
    · simp
  · simp

theorem splitext_data (p : String) :
    (splitext p).1.data ++ (splitext p).2.data = p.data := by
  unfold splitext
  split
  · simp
  · split
    · exact splitextAux_data ..
    · exact splitextAux_data ..

theorem checkpointPath_data_length (output_file : String) :
    (checkpointPath output_file).data.length = output_file.data.length + 5 := by
  have h := congrArg List.length (splitext_data output_file)
  simp only [List.length_append] at h
  simp only [checkpointPath, str_data_append, List.length_append,
    List.length_cons, List.length_nil]
  omega

theorem checkpointPath_ne (output_file : String) :
    checkpointPath output_file ≠ output_file := by
  intro h
  have h2 := congrArg (fun s : String => s.data.length) h
  simp only [checkpointPath_data_length] at h2
  omega

/-! ### Structure of a run -/

theorem flatMap_congr {α β : Type} {l : List α} {f g : α → List β}
    (h : ∀ a ∈ l, f a = g a) : l.flatMap f = l.flatMap g := by
  induction l with
  | nil => rfl
  | cons x xs ih =>
    simp only [List.flatMap_cons]
    rw [h x (by simp), ih (fun a ha => h a (by simp [ha]))]

theorem processRows_rows (api : Api) (N : Nat) (out : String) :
    ∀ (rows : List Row) (idx : Nat) (stats : Stats),
    (processRows api N out rows idx stats).rows = rows.map (applyRow api) := by
  intro rows
  induction rows with
  | nil => intro idx stats; rfl
  | cons r rest ih =>
    intro idx stats
    simp only [processRows, List.map_cons]
    rw [ih]

theorem processRows_stats (api : Api) (N : Nat) (out : String) :
    ∀ (rows : List Row) (idx : Nat) (stats : Stats),
    (processRows api N out rows idx stats).stats =
      ⟨stats.processed_rows + processedCount api rows,
       stats.success_count + outcomeCount api ROut.success rows,
       stats.error_count + outcomeCount api ROut.error rows,
       stats.no_data_count + outcomeCount api ROut.noData rows⟩ := by
  intro rows
  induction rows with
  | nil =>
    intro idx stats
    simp [processRows, processedCount, outcomeCount]
  | cons r rest ih =>
    intro idx stats
    simp only [processRows]
    rw [ih]
    cases h : classifyRow api r <;>
      simp [bumpStats, processedCount, outcomeCount, List.countP_cons, h,
        countedB, Stats.mk.injEq] <;>
      omega

theorem processRows_trace (api : Api) (N : Nat) (out : String) :
    ∀ (rows : List Row) (idx : Nat) (stats : Stats),
    (processRows api N out rows idx stats).trace =
      traceSpecFrom api N (checkpointPath out) idx stats.processed_rows rows := by
  intro rows
  induction rows with
  | nil =>
    intro idx stats
    simp [processRows, traceSpecFrom]
  | cons r rest ih =>
    intro idx stats
    simp only [processRows]
    rw [ih]
    simp only [traceSpecFrom, List.length_cons, List.range_succ_eq_map,
      List.flatMap_cons, List.flatMap_map]
    have hbump : (bumpStats stats (classifyRow api r)).processed_rows =
        stats.processed_rows +
          (if countedB (classifyRow api r) = true then 1 else 0) := by
      cases classifyRow api r <;> simp [bumpStats, countedB]
    congr 1
    · -- head block of the specification
      have h1 : processedCount api (List.take (0 + 1) (r :: rest)) =
          (if countedB (classifyRow api r) = true then 1 else 0) := by
        simp [processedCount, List.countP_cons]
      simp only [List.getD_cons_zero, Nat.add_zero, hbump, save_path,
        Bool.cond_false, h1]
    · -- tail blocks: shift the row index and processed offset by one
      apply flatMap_congr
      intro j _
      simp only [Nat.succ_eq_add_one, List.getD_cons_succ, List.take_succ_cons]
      have hc : processedCount api (r :: List.take (j + 1) rest) =
          processedCount api (List.take (j + 1) rest) +
            (if countedB (classifyRow api r) = true then 1 else 0) := by
        simp [processedCount, List.countP_cons]
      simp only [hc, hbump]
      cases hb : countedB (classifyRow api r) <;>
        simp [hb, Nat.add_assoc, Nat.add_comm 1]

/-! ### Projections of a full run -/

theorem process_file_rows (api : Api) (N : Nat) (out : String)
    (rows : List Row) :
    (process_file api N out rows).rows = rows.map (applyRow api) := by
  simp [process_file, processRows_rows]

theorem process_file_stats (api : Api) (N : Nat) (out : String)
    (rows : List Row) :
    (process_file api N out rows).stats =
      ⟨processedCount api rows,
       outcomeCount api ROut.success rows,
       outcomeCount api ROut.error rows,
       outcomeCount api ROut.noData rows⟩ := by
  simp [process_file, processRows_stats, Stats.init]

theorem process_file_trace (api : Api) (N : Nat) (out : String)
    (rows : List Row) :
    (process_file api N out rows).trace = traceSpec api N out rows := by
  have h := processRows_trace api N out rows 2 Stats.init
  simp only [Stats.init] at h
  simp only [process_file, traceSpec, Stats.init, h, save_path, Bool.cond_true]

/-! ### Counting lemmas -/

@[simp] theorem countedB_noData : countedB ROut.noData = false := rfl

@[simp] theorem countedB_success : countedB ROut.success = true := rfl

@[simp] theorem countedB_error : countedB ROut.error = true := rfl

theorem outcomeCount_sum (api : Api) (rows : List Row) :
    outcomeCount api ROut.success rows + outcomeCount api ROut.error rows +
      outcomeCount api ROut.noData rows = rows.length := by
  induction rows with
  | nil => simp [outcomeCount]
  | cons r rest ih =>
    simp only [outcomeCount, List.countP_cons, List.length_cons] at ih ⊢
    cases classifyRow api r <;> simp [beq_iff_eq] <;> omega

theorem processedCount_eq (api : Api) (rows : List Row) :
    processedCount api rows =
      outcomeCount api ROut.success rows + outcomeCount api ROut.error rows := by
  induction rows with
  | nil => simp [processedCount, outcomeCount]
  | cons r rest ih =>
    simp only [processedCount, outcomeCount, List.countP_cons] at ih ⊢
    cases classifyRow api r <;> simp [beq_iff_eq] <;> omega

theorem countP_take_le (p : Row → Bool) (n : Nat) (rows : List Row) :
    List.countP p (rows.take n) ≤ List.countP p rows :=
  List.Sublist.countP_le p (List.take_sublist n rows)

theorem getD_eq_get (rows : List Row) (j : Nat) (hj : j < rows.length) :
    rows.getD j default = rows.get ⟨j, hj⟩ := by
  simp [List.getD_eq_getElem?_getD, List.getElem?_eq_getElem hj,
    List.get_eq_getElem]

theorem take_succ_of_lt (rows : List Row) (j : Nat) (hj : j < rows.length) :
    rows.take (j + 1) = rows.take j ++ [rows.get ⟨j, hj⟩] := by
  rw [List.take_succ, List.getElem?_eq_getElem hj]
  simp [List.get_eq_getElem]

/-- Every visited row leaves exactly its row event in the trace of the
full run. -/
theorem row_event_mem (api : Api) (N : Nat) (out : String) (rows : List Row)
    (j : Nat) (hj : j < rows.length) :
    Event.row (2 + j) (classifyRow api (rows.getD j default)) ∈
      (process_file api N out rows).trace := by
  simp only [process_file, processRows_trace]
  apply List.mem_append_left
  simp only [traceSpecFrom]
  apply List.mem_flatMap.mpr
  exact ⟨j, List.mem_range.mpr hj, List.mem_cons_self _ _⟩

/-! ### Merge lemmas -/

theorem head_dropWhile_not {p : Char → Bool} :
    ∀ (l : List Char) (a : Char), (l.dropWhile p).head? = some a →
    p a = false := by
  intro l
  induction l with
  | nil => intro a h; simp [List.dropWhile] at h
  | cons x xs ih =>
    intro a h
    rw [List.dropWhile_cons] at h
    by_cases hp : p x
    · exact ih a (by simpa [hp] using h)
    · simp only [hp, if_false, ite_false, if_neg, List.head?_cons] at h
      simp only [List.head?] at h
      cases h
      exact Bool.eq_false_iff.mpr hp

/-- The `endswith " "` disjunct of the merge test is dead: after
`rstrip()` a string never ends in a space. -/
theorem lastChar_pyRstrip_ne_space (s : String) :
    (lastChar (pyRstrip s) == some ' ') = false := by
  unfold lastChar pyRstrip dropTrailingWs
  rw [List.getLast?_reverse]
  cases h : (s.data.reverse.dropWhile pyIsSpace).head? with
  | none => rfl
  | some a =>
    have ha := head_dropWhile_not _ a h
    by_cases hsp : a = ' '
    · rw [hsp] at ha
      exact absurd ha (by decide)
    · simp [hsp]

/-! ### Claim C2 -/

/-- C2: End-to-end scenario — source code `"12345"` resolves to
identifiers `["d1", "d2"]`, `d1` yields normalized codes `["X2", "X1"]`,
`d2` yields `["X1", "X3"]`, the existing description is empty; the value
written to the row's target column is exactly `"X1, X2, X3"` and the row
is counted as success. -/
theorem C2_end_to_end :
    (process_file scenApi SAVE_INTERVAL "out.xlsx" [scenRow]).rows =
      [⟨some "12345", CellVal.str "X1, X2, X3"⟩] ∧
    (process_file scenApi SAVE_INTERVAL "out.xlsx" [scenRow]).stats.success_count = 1 ∧
    Event.row 2 ROut.success ∈
      (process_file scenApi SAVE_INTERVAL "out.xlsx" [scenRow]).trace := by
  decide

/-! ### Claim C3 -/

/-- C3 counterexample: the claim predicts that a description ending in
whitespace receives no additional `", "` separator, but the code strips
trailing whitespace before the `endswith` test, so `"A "` with new code
`"C"` is written as `"A , C"`, not the claim's `"A C"`. -/
theorem C3_counterexample :
    mergeDescription (CellVal.str "A ") "C" = Except.ok "A , C" ∧
    specMergeClaim "A " "C" = "A C" ∧
    ("A , C" : String) ≠ "A C" :=
  ⟨rfl, rfl, by decide⟩

/-- Sanity check at the Unicode boundary: a description ending in a
comma followed by a no-break space (U+00A0) is rstripped to a trailing
comma, so no separator is appended — as in the source. -/
example : mergeDescription (CellVal.str "A,\u00A0") "C" =
    Except.ok "A,\u00A0C" := rfl

/-- C3 amended: for a non-empty existing description the merge appends
`", "` before the rendered cross-reference string unless the
description, after stripping trailing whitespace, ends in a comma; with
an empty existing description (empty cell or empty string) the rendered
string becomes the full description.  In particular `"A, B"` with new
codes rendered `"C, D"` produces `"A, B, C, D"`, `"A,"` with `"C"`
produces `"A,C"`, and an empty description with `"C, D"` produces
`"C, D"`. -/
theorem C3_amended (s t : String) :
    mergeDescription (CellVal.str s) t =
      Except.ok (if s = "" then t
                 else if lastChar (pyRstrip s) == some ',' then s ++ t
                 else (s ++ ", ") ++ t) ∧
    mergeDescription CellVal.none t = Except.ok t ∧
    mergeDescription (CellVal.str "A, B") "C, D" = Except.ok "A, B, C, D" ∧
    mergeDescription (CellVal.str "A,") "C" = Except.ok "A,C" ∧
    mergeDescription CellVal.none "C, D" = Except.ok "C, D" := by
  refine ⟨?_, rfl, rfl, rfl, rfl⟩
  by_cases hs : s = ""
  · simp [mergeDescription, hs]
  · have hbe : (s == "") = false := by simp [hs]
    simp only [mergeDescription, hbe, hs, if_false, ite_false, if_neg,
      Bool.false_eq_true, lastChar_pyRstrip_ne_space, Bool.or_false]
    cases hx : (lastChar (pyRstrip s) == some ',') <;> simp [hx]

/-! ### Claim C6 -/

/-- C6: Error absorption in the lookup client — `find_oem` and
`find_replacements` are total functions into lists (no exception reaches
the caller), and each returns the empty sequence whenever the remote
call fails with a transport error, the response is malformed, or the
parsed document holds zero matching nodes. -/
theorem C6_error_absorption (fetch : ApiReq → RemoteResult)
    (oem detail_id : String) :
    ((fetch (findOemReq oem) = RemoteResult.transportError ∨
      fetch (findOemReq oem) = RemoteResult.malformed ∨
      (∃ nodes, fetch (findOemReq oem) = RemoteResult.ok nodes ∧
        nodes.filter (fun n => n.tag == "detail") = [])) →
      find_oem fetch oem = []) ∧
    ((fetch (findReplacementsReq detail_id) = RemoteResult.transportError ∨
      fetch (findReplacementsReq detail_id) = RemoteResult.malformed ∨
      (∃ nodes, fetch (findReplacementsReq detail_id) = RemoteResult.ok nodes ∧
        nodes.filter (fun n => n.tag == "row") = [])) →
      find_replacements fetch detail_id = []) := by
  constructor
  · rintro (h | h | ⟨nodes, h, hf⟩)
    · simp [find_oem, h]
    · simp [find_oem, h]
    · simp [find_oem, h, hf]
  · rintro (h | h | ⟨nodes, h, hf⟩)
    · simp [find_replacements, h]
    · simp [find_replacements, h]
    · simp [find_replacements, h, hf]

/-- C6 witness: a fetch oracle that always fails with a transport error
yields empty results from both client calls. -/
theorem C6_witness :
    find_oem (fun _ => RemoteResult.transportError) "12345" = [] ∧
    find_replacements (fun _ => RemoteResult.transportError) "d1" = [] :=
  ⟨(C6_error_absorption (fun _ => RemoteResult.transportError) "12345" "d1").1
      (Or.inl rfl),
   (C6_error_absorption (fun _ => RemoteResult.transportError) "12345" "d1").2
      (Or.inl rfl)⟩

/-! ### Claim C4 -/

/-- C4: Dedup and ordering — the rendered cross-reference list contains
each distinct normalized code exactly once, in ascending lexicographic
order, and the rendered text is invariant under reordering of the codes
produced by the replacement fan-out; a successful row's written
description ends in exactly that rendered text. -/
theorem C4_dedup_ordering (codes codes2 : List String) :
    (sortedCrossList codes).Nodup ∧
    List.Sorted strLe (sortedCrossList codes) ∧
    (∀ c, c ∈ sortedCrossList codes ↔ c ∈ codes) ∧
    (codes.Perm codes2 → crossNumbersText codes = crossNumbersText codes2) ∧
    (∀ (api : Api) (row : Row) (nd : String),
      (processRowBody api row).1 = Except.ok (RowOutcome.success nd) →
      ∃ pre, nd = pre ++ crossNumbersText
        (collectCrosses api (api.find_oem (pyStrip (row.article.getD ""))))) := by
  refine ⟨?_, ?_, ?_, ?_, ?_⟩
  · exact (List.Perm.nodup_iff (List.perm_insertionSort strLe codes.dedup)).mpr
      (List.nodup_dedup codes)
  · exact List.sorted_insertionSort strLe codes.dedup
  · intro c
    rw [sortedCrossList,
      List.Perm.mem_iff (List.perm_insertionSort strLe codes.dedup),
      List.mem_dedup]
  · intro hp
    have h1 : (sortedCrossList codes).Perm (sortedCrossList codes2) :=
      ((List.perm_insertionSort strLe codes.dedup).trans hp.dedup).trans
        (List.perm_insertionSort strLe codes2.dedup).symm
    have h2 := List.eq_of_perm_of_sorted h1
      (List.sorted_insertionSort strLe codes.dedup)
      (List.sorted_insertionSort strLe codes2.dedup)
    rw [crossNumbersText, crossNumbersText, h2]
  · intro api row nd h
    cases harts : row.article with
    | none => simp [processRowBody, harts] at h
    | some cell =>
      simp only [processRowBody, harts] at h
      by_cases hc : (cell == "") = true
      · rw [if_pos hc] at h
        simp at h
      · rw [if_neg hc] at h
        by_cases hde : (api.find_oem (pyStrip cell)).isEmpty = true
        · rw [if_pos hde] at h
          simp at h
        · rw [if_neg hde] at h
          by_cases hcr :
              (collectCrosses api (api.find_oem (pyStrip cell))).isEmpty = true
          · rw [if_pos hcr] at h
            simp at h
          · rw [if_neg hcr] at h
            simp only [harts, Option.getD_some]
            cases hm : mergeDescription row.description
                (crossNumbersText (collectCrosses api (api.find_oem (pyStrip cell)))) with
            | error e =>
              simp only [hm] at h
              simp at h
            | ok nd2 =>
              simp only [hm] at h
              simp only [Except.ok.injEq, RowOutcome.success.injEq] at h
              cases hdesc : row.description with
              | nonstr =>
                simp [mergeDescription, hdesc] at hm
              | none =>
                simp only [mergeDescription, hdesc, Except.ok.injEq] at hm
                exact ⟨"", by rw [← h, ← hm]; rfl⟩
              | str s =>
                simp only [mergeDescription, hdesc] at hm
                by_cases hs : (s == "") = true
                · rw [if_pos hs] at hm
                  simp only [Except.ok.injEq] at hm
                  exact ⟨"", by rw [← h, ← hm]; rfl⟩
                · rw [if_neg hs] at hm
                  simp only [Except.ok.injEq] at hm
                  exact ⟨_, by rw [← h, ← hm]⟩

/-- C4 witness: a concrete fan-out with repeats and out-of-order codes,
and a concrete successful row. -/
theorem C4_witness :
    (sortedCrossList ["X2", "X1", "X1", "X3"]).Nodup ∧
    List.Sorted strLe (sortedCrossList ["X2", "X1", "X1", "X3"]) ∧
    ("X1" ∈ sortedCrossList ["X2", "X1", "X1", "X3"] ↔
      "X1" ∈ ["X2", "X1", "X1", "X3"]) ∧
    crossNumbersText ["X2", "X1", "X1", "X3"] =
      crossNumbersText ["X1", "X3", "X2", "X1"] ∧
    ∃ pre, "X1, X2, X3" = pre ++ crossNumbersText
      (collectCrosses scenApi (scenApi.find_oem (pyStrip (scenRow.article.getD "")))) := by
  obtain ⟨h1, h2, h3, h4, h5⟩ :=
    C4_dedup_ordering ["X2", "X1", "X1", "X3"] ["X1", "X3", "X2", "X1"]
  exact ⟨h1, h2, h3 "X1", h4 (by decide), h5 scenApi scenRow "X1, X2, X3" (by decide)⟩

/-! ### Claim C5 -/

/-- C5: Skip-without-mutation for blank codes — a row whose article cell
is absent or holds the empty string makes no remote calls, exits the
try block as `noData`, keeps its description cell unchanged in the saved
sheet, and leaves a `noData` row event (the `no_data` count) in the
trace. -/
theorem C5_blank_skip (api : Api) (N : Nat) (out : String) (rows : List Row)
    (j : Nat) (hj : j < rows.length)
    (hblank : (rows.get ⟨j, hj⟩).article = Option.none ∨
      (rows.get ⟨j, hj⟩).article = some "") :
    processRowBody api (rows.get ⟨j, hj⟩) = (Except.ok RowOutcome.noData, []) ∧
    (process_file api N out rows).rows[j]? = some (rows.get ⟨j, hj⟩) ∧
    Event.row (2 + j) ROut.noData ∈ (process_file api N out rows).trace := by
  have hbody : processRowBody api rows[j] = (Except.ok RowOutcome.noData, []) := by
    rcases hblank with h | h <;> rw [List.get_eq_getElem] at h <;>
      simp [processRowBody, h]
  refine ⟨by rw [List.get_eq_getElem]; exact hbody, ?_, ?_⟩
  · rw [process_file_rows, List.getElem?_map, List.getElem?_eq_getElem hj]
    simp [applyRow, hbody, List.get_eq_getElem]
  · have hm := row_event_mem api N out rows j hj
    rw [getD_eq_get rows j hj] at hm
    have hcl : classifyRow api (rows.get ⟨j, hj⟩) = ROut.noData := by
      rw [List.get_eq_getElem]
      simp [classifyRow, hbody]
    rwa [hcl] at hm

/-- C5 witness: a one-row sheet whose only row has an absent article
cell. -/
theorem C5_witness :
    0 < ([blankRow] : List Row).length ∧
    (([blankRow] : List Row).get ⟨0, by decide⟩).article = Option.none ∧
    (processRowBody scenApi (([blankRow] : List Row).get ⟨0, by decide⟩) =
      (Except.ok RowOutcome.noData, []) ∧
    (process_file scenApi SAVE_INTERVAL "out.xlsx" [blankRow]).rows[0]? =
      some (([blankRow] : List Row).get ⟨0, by decide⟩) ∧
    Event.row (2 + 0) ROut.noData ∈
      (process_file scenApi SAVE_INTERVAL "out.xlsx" [blankRow]).trace) :=
  ⟨by decide, rfl,
    C5_blank_skip scenApi SAVE_INTERVAL "out.xlsx" [blankRow] 0 (by decide)
      (Or.inl rfl)⟩

/-! ### Claim C10 -/

theorem crossStep_mem (api : Api) (acc : List String) (d : Detail)
    (c : String) (hc : c ∈ crossStep api acc d) :
    c ∈ acc ∨ (c ≠ "" ∧ ∃ did, d.detailid = some did ∧ did ≠ "" ∧
      ∃ r ∈ api.find_replacements did, r.formattedoem = some c) := by
  cases hd : d.detailid with
  | none =>
    simp only [crossStep, hd] at hc
    exact Or.inl hc
  | some did =>
    simp only [crossStep, hd] at hc
    by_cases hdid : (did == "") = true
    · rw [if_pos hdid] at hc
      exact Or.inl hc
    · rw [if_neg hdid] at hc
      rcases List.mem_append.mp hc with h | h
      · exact Or.inl h
      · right
        obtain ⟨r, hr, hfm⟩ := List.mem_filterMap.mp h
        cases hfo : r.formattedoem with
        | none => rw [hfo] at hfm; cases hfm
        | some f =>
          simp only [hfo] at hfm
          by_cases hf : (f == "") = true
          · rw [if_pos hf] at hfm; cases hfm
          · rw [if_neg hf] at hfm
            cases hfm
            exact ⟨fun hceq => hf (beq_iff_eq.mpr hceq), did, rfl,
              fun hdeq => hdid (beq_iff_eq.mpr hdeq), r, hr, hfo⟩

theorem collectCrosses_nil (api : Api) (details : List Detail)
    (hbad : ∀ d ∈ details, ∀ did, d.detailid = some did →
      ∀ r ∈ api.find_replacements did,
        r.formattedoem = Option.none ∨ r.formattedoem = some "") :
    collectCrosses api details = [] := by
  have key : ∀ (ds : List Detail),
      (∀ d ∈ ds, ∀ did, d.detailid = some did →
        ∀ r ∈ api.find_replacements did,
          r.formattedoem = Option.none ∨ r.formattedoem = some "") →
      ∀ acc, ds.foldl (crossStep api) acc = acc := by
    intro ds
    induction ds with
    | nil => intro _ acc; rfl
    | cons d rest ih =>
      intro hb acc
      rw [List.foldl_cons]
      have hstep : crossStep api acc d = acc := by
        cases hd : d.detailid with
        | none => simp [crossStep, hd]
        | some did =>
          simp only [crossStep, hd]
          by_cases hdid : (did == "") = true
          · rw [if_pos hdid]
          · rw [if_neg hdid]
            have hreps : crossesOfReplacements (api.find_replacements did) = [] := by
              unfold crossesOfReplacements
              rw [List.filterMap_eq_nil_iff]
              intro r hr
              rcases hb d (List.mem_cons_self d rest) did hd r hr with h | h
              · rw [h]
              · rw [h]
                rfl
            rw [hreps, List.append_nil]
      rw [hstep]
      exact ih (fun d2 hd2 => hb d2 (List.mem_cons_of_mem d hd2)) acc
  exact key details hbad []

/-- C10: Replacement records with a missing or empty normalized code are
silently excluded — every code in the accumulated cross set comes from a
record whose `formattedoem` is present and non-empty, and a row all of
whose replacement records lack a usable code exits as `noData` with its
description cell unchanged. -/
theorem C10_formattedoem_filter :
    (∀ (api : Api) (details : List Detail) (c : String),
      c ∈ collectCrosses api details →
      c ≠ "" ∧ ∃ d ∈ details, ∃ did, d.detailid = some did ∧ did ≠ "" ∧
        ∃ r ∈ api.find_replacements did, r.formattedoem = some c) ∧
    (∀ (api : Api) (row : Row),
      (∀ d ∈ api.find_oem (pyStrip (row.article.getD "")), ∀ did,
        d.detailid = some did → ∀ r ∈ api.find_replacements did,
          r.formattedoem = Option.none ∨ r.formattedoem = some "") →
      (processRowBody api row).1 = Except.ok RowOutcome.noData ∧
      applyRow api row = row) := by
  constructor
  · intro api details c hc
    have key : ∀ (ds : List Detail) (acc : List String),
        c ∈ ds.foldl (crossStep api) acc →
        c ∈ acc ∨ (c ≠ "" ∧ ∃ d ∈ ds, ∃ did, d.detailid = some did ∧
          did ≠ "" ∧ ∃ r ∈ api.find_replacements did,
            r.formattedoem = some c) := by
      intro ds
      induction ds with
      | nil => intro acc h; exact Or.inl h
      | cons d rest ih =>
        intro acc h
        rw [List.foldl_cons] at h
        rcases ih (crossStep api acc d) h with h2 | ⟨hne, d2, hd2, hxs⟩
        · rcases crossStep_mem api acc d c h2 with h3 | ⟨hne, did, hdid, hxs⟩
          · exact Or.inl h3
          · exact Or.inr ⟨hne, d, List.mem_cons_self d rest, did, hdid, hxs⟩
        · exact Or.inr ⟨hne, d2, List.mem_cons_of_mem d hd2, hxs⟩
    rcases key details [] hc with h | h
    · cases h
    · exact h
  · intro api row hbad
    have hbody : (processRowBody api row).1 = Except.ok RowOutcome.noData := by
      cases harts : row.article with
      | none => simp [processRowBody, harts]
      | some cell =>
        rw [harts] at hbad
        simp only [Option.getD_some] at hbad
        simp only [processRowBody, harts]
        by_cases hc : (cell == "") = true
        · rw [if_pos hc]
        · rw [if_neg hc]
          by_cases hde : (api.find_oem (pyStrip cell)).isEmpty = true
          · rw [if_pos hde]
          · rw [if_neg hde]
            have hnil : collectCrosses api (api.find_oem (pyStrip cell)) = [] :=
              collectCrosses_nil api _ hbad
            rw [hnil]
            rfl
    have happly : applyRow api row = row := by
      simp [applyRow, hbody]
    exact ⟨hbody, happly⟩

/-- C10 witness: a concrete fan-out whose codes all come from non-empty
`formattedoem` attributes, and a row whose replacement records lack a
usable code. -/
theorem C10_witness :
    ("X2" ≠ "" ∧
      ∃ d ∈ [(⟨some "d1", Option.none, Option.none, Option.none,
        Option.none⟩ : Detail)],
        ∃ did, d.detailid = some did ∧ did ≠ "" ∧
          ∃ r ∈ scenApi.find_replacements did, r.formattedoem = some "X2") ∧
    ((processRowBody badApi ⟨some "B", CellVal.str "x"⟩).1 =
        Except.ok RowOutcome.noData ∧
      applyRow badApi ⟨some "B", CellVal.str "x"⟩ =
        ⟨some "B", CellVal.str "x"⟩) :=
  ⟨C10_formattedoem_filter.1 scenApi
      [⟨some "d1", Option.none, Option.none, Option.none, Option.none⟩]
      "X2" (by decide),
   C10_formattedoem_filter.2 badApi ⟨some "B", CellVal.str "x"⟩ (by
      intro d hd did hdid r hr
      simp only [badApi, List.mem_singleton] at hd
      subst hd
      simp only at hdid
      cases hdid
      simp only [badApi, List.mem_cons, List.mem_singleton] at hr
      rcases hr with rfl | rfl | h
      · right; rfl
      · left; rfl
      · cases h)⟩

/-! ### Claim C1 -/

/-- C1: Failure isolation — if processing row `k` raises an uncaught
exception, the row is counted as `error` (its error row event is in the
trace), every row of the run still gets exactly one outcome event and is
counted (the three counters sum to the number of data rows), and the
final save to the canonical output path still occurs as the last event
of the run. -/
theorem C1_failure_isolation (api : Api) (N : Nat) (out : String)
    (rows : List Row) (k : Nat) (e : PyErr) (hk : k < rows.length)
    (he : (processRowBody api (rows.get ⟨k, hk⟩)).1 = Except.error e) :
    Event.row (2 + k) ROut.error ∈ (process_file api N out rows).trace ∧
    (∀ j, j < rows.length → ∃ o, Event.row (2 + j) o ∈
      (process_file api N out rows).trace) ∧
    (process_file api N out rows).trace.getLast? =
      some (Event.save out true) ∧
    (process_file api N out rows).stats.success_count +
      (process_file api N out rows).stats.error_count +
      (process_file api N out rows).stats.no_data_count = rows.length := by
  refine ⟨?_, ?_, ?_, ?_⟩
  · have hm := row_event_mem api N out rows k hk
    rw [getD_eq_get rows k hk] at hm
    have hcl : classifyRow api (rows.get ⟨k, hk⟩) = ROut.error := by
      rw [List.get_eq_getElem] at he ⊢
      simp [classifyRow, he]
    rwa [hcl] at hm
  · intro j hj
    exact ⟨_, row_event_mem api N out rows j hj⟩
  · simp [process_file, save_path, List.getLast?_concat]
  · rw [process_file_stats]
    exact outcomeCount_sum api rows

/-- C1 witness: a two-row sheet whose first row raises `AttributeError`
in the merge phase (non-string description cell) while the second row
succeeds; both rows are counted and the final save occurs. -/
theorem C1_witness :
    (0 : Nat) < ([errRow, scenRow] : List Row).length ∧
    (processRowBody scenApi (([errRow, scenRow] : List Row).get
      ⟨0, by decide⟩)).1 = Except.error PyErr.attributeError ∧
    (Event.row (2 + 0) ROut.error ∈
      (process_file scenApi SAVE_INTERVAL "out.xlsx" [errRow, scenRow]).trace ∧
    (∀ j, j < ([errRow, scenRow] : List Row).length → ∃ o,
      Event.row (2 + j) o ∈
        (process_file scenApi SAVE_INTERVAL "out.xlsx" [errRow, scenRow]).trace) ∧
    (process_file scenApi SAVE_INTERVAL "out.xlsx" [errRow, scenRow]).trace.getLast? =
      some (Event.save "out.xlsx" true) ∧
    (process_file scenApi SAVE_INTERVAL "out.xlsx" [errRow, scenRow]).stats.success_count +
      (process_file scenApi SAVE_INTERVAL "out.xlsx" [errRow, scenRow]).stats.error_count +
      (process_file scenApi SAVE_INTERVAL "out.xlsx" [errRow, scenRow]).stats.no_data_count =
      ([errRow, scenRow] : List Row).length) :=
  ⟨by decide, by decide,
    C1_failure_isolation scenApi SAVE_INTERVAL "out.xlsx" [errRow, scenRow]
      0 PyErr.attributeError (by decide) (by decide)⟩

/-! ### Trace counting lemmas -/

theorem sum_map_ite {α : Type} (q : α → Bool) (l : List α) :
    (l.map (fun a => if q a then 1 else 0)).sum = l.countP q := by
  induction l with
  | nil => rfl
  | cons x xs ih =>
    rw [List.map_cons, List.sum_cons, List.countP_cons, ih]
    cases h : q x <;> simp [h, Nat.add_comm]

theorem mem_traceSpecFrom (e : Event) (api : Api) (N : Nat) (chk : String)
    (idx p0 : Nat) (rows : List Row)
    (he : e ∈ traceSpecFrom api N chk idx p0 rows) :
    (∃ i o, e = Event.row i o) ∨ e = Event.save chk false := by
  unfold traceSpecFrom at he
  rcases List.mem_flatMap.mp he with ⟨j, _, hj⟩
  rcases List.mem_cons.mp hj with h | h
  · exact Or.inl ⟨_, _, h⟩
  · cases hcond : (countedB (classifyRow api (rows.getD j default)) &&
        ((p0 + processedCount api (rows.take (j + 1))) % N == 0)) with
    | true =>
      rw [hcond] at h
      simp only [if_true, ite_true, if_pos, List.mem_singleton] at h
      exact Or.inr h
    | false =>
      rw [hcond] at h
      simp at h

theorem countP_chkSave_traceSpecFrom (api : Api) (N : Nat) (chk : String)
    (idx p0 : Nat) (rows : List Row) :
    (traceSpecFrom api N chk idx p0 rows).countP isChkSave =
      (List.range rows.length).countP (fun j =>
        countedB (classifyRow api (rows.getD j default)) &&
          ((p0 + processedCount api (rows.take (j + 1))) % N == 0)) := by
  unfold traceSpecFrom
  rw [List.countP_flatMap, ← sum_map_ite]
  congr 1
  apply List.map_congr_left
  intro j _
  simp only [Function.comp]
  rw [List.countP_cons]
  cases hcond : (countedB (classifyRow api (rows.getD j default)) &&
      ((p0 + processedCount api (rows.take (j + 1))) % N == 0)) <;>
    simp [hcond, isChkSave, List.countP_cons]

/-! ### Claim C7 -/

/-- C7: Checkpoint cadence and path separation — the run's trace is
exactly the block form in which row `j` is followed by an intermediate
save to the checkpoint path precisely when the row was counted and the
processed-row count over rows `1..j` is a multiple of the interval
(hence any such save occurs before the next row begins); the checkpoint
path differs from the canonical output path; and the canonical output
path is saved exactly once, as the last event of the run. -/
theorem C7_checkpoint_cadence (api : Api) (N : Nat) (out : String)
    (rows : List Row) (_hN : 0 < N) :
    (process_file api N out rows).trace = traceSpec api N out rows ∧
    checkpointPath out ≠ out ∧
    (process_file api N out rows).trace.countP (isSaveTo out) = 1 ∧
    (process_file api N out rows).trace.getLast? =
      some (Event.save out true) := by
  refine ⟨process_file_trace api N out rows, checkpointPath_ne out, ?_, ?_⟩
  · rw [process_file_trace]
    unfold traceSpec
    rw [List.countP_append]
    have h0 : (traceSpecFrom api N (checkpointPath out) 2 0 rows).countP
        (isSaveTo out) = 0 := by
      rw [List.countP_eq_zero]
      intro e he
      rcases mem_traceSpecFrom e api N (checkpointPath out) 2 0 rows he with
        ⟨i, o, rfl⟩ | rfl
      · simp [isSaveTo]
      · simp [isSaveTo, beq_eq_false_iff_ne, checkpointPath_ne out]
    have h1 : List.countP (isSaveTo out) [Event.save out true] = 1 := by
      simp [List.countP_cons, isSaveTo]
    rw [h0, h1]
  · simp [process_file, save_path, List.getLast?_concat]

/-- C7 witness: a one-row run with interval 1 — the single successful
row is followed by a checkpoint save before the final save. -/
theorem C7_witness :
    (0 : Nat) < 1 ∧
    ((process_file scenApi 1 "out.xlsx" [scenRow]).trace =
      traceSpec scenApi 1 "out.xlsx" [scenRow] ∧
    checkpointPath "out.xlsx" ≠ "out.xlsx" ∧
    (process_file scenApi 1 "out.xlsx" [scenRow]).trace.countP
      (isSaveTo "out.xlsx") = 1 ∧
    (process_file scenApi 1 "out.xlsx" [scenRow]).trace.getLast? =
      some (Event.save "out.xlsx" true)) :=
  ⟨by decide, C7_checkpoint_cadence scenApi 1 "out.xlsx" [scenRow] (by decide)⟩

/-! ### Claim C8 -/

/-- C8: The processed-rows counter excludes `no_data` rows — over every
prefix of the run `processed_rows = success_count + error_count`, a
`noData` row leaves `processed_rows` unchanged, and the number of
checkpoint saves in the trace is determined by that counter (a save for
each row at which the processed count lands on a multiple of the
interval), not by the number of rows visited. -/
theorem C8_processed_excludes_noData (api : Api) (N : Nat) (out : String)
    (rows : List Row) :
    (∀ n : Nat,
      (process_file api N out (rows.take n)).stats.processed_rows =
        (process_file api N out (rows.take n)).stats.success_count +
          (process_file api N out (rows.take n)).stats.error_count) ∧
    (∀ j (hj : j < rows.length),
      classifyRow api (rows.get ⟨j, hj⟩) = ROut.noData →
      (process_file api N out (rows.take (j + 1))).stats.processed_rows =
        (process_file api N out (rows.take j)).stats.processed_rows) ∧
    (process_file api N out rows).trace.countP isChkSave =
      (List.range rows.length).countP (fun j =>
        countedB (classifyRow api (rows.getD j default)) &&
          (processedCount api (rows.take (j + 1)) % N == 0)) := by
  refine ⟨?_, ?_, ?_⟩
  · intro n
    rw [process_file_stats]
    exact processedCount_eq api (rows.take n)
  · intro j hj hnd
    rw [List.get_eq_getElem] at hnd
    simp only [process_file_stats]
    show processedCount api (rows.take (j + 1)) =
      processedCount api (rows.take j)
    rw [take_succ_of_lt rows j hj]
    unfold processedCount
    rw [List.countP_append]
    simp [List.countP_cons, List.get_eq_getElem, hnd]
  · rw [process_file_trace]
    unfold traceSpec
    rw [List.countP_append]
    have hfin : List.countP isChkSave [Event.save out true] = 0 := by
      simp [List.countP_cons, isChkSave]
    have h := countP_chkSave_traceSpecFrom api N (checkpointPath out) 2 0 rows
    simp only [Nat.zero_add] at h
    rw [hfin, h, Nat.add_zero]

/-- C8 witness: a run of one blank row (classified `noData`). -/
theorem C8_witness :
    (0 : Nat) < ([blankRow] : List Row).length ∧
    classifyRow scenApi (([blankRow] : List Row).get ⟨0, by decide⟩) =
      ROut.noData ∧
    ((process_file scenApi SAVE_INTERVAL "out.xlsx"
        (([blankRow] : List Row).take (0 + 1))).stats.processed_rows =
      (process_file scenApi SAVE_INTERVAL "out.xlsx"
        (([blankRow] : List Row).take 0)).stats.processed_rows) :=
  ⟨by decide, by decide,
    (C8_processed_excludes_noData scenApi SAVE_INTERVAL "out.xlsx"
        [blankRow]).2.1 0 (by decide) (by decide)⟩

/-! ### Claim C9 -/

/-- C9: Outcome partition invariant — at completion the three outcome
counters sum to the number of data rows, the counters never decrease
along prefixes of the run, and each visited row increments the outcome
counters by exactly one in total. -/
theorem C9_outcome_partition (api : Api) (N : Nat) (out : String)
    (rows : List Row) :
    ((process_file api N out rows).stats.success_count +
      (process_file api N out rows).stats.error_count +
      (process_file api N out rows).stats.no_data_count = rows.length) ∧
    (∀ n : Nat, Stats.le (process_file api N out (rows.take n)).stats
      (process_file api N out rows).stats) ∧
    (∀ j (hj : j < rows.length),
      ((process_file api N out (rows.take (j + 1))).stats.success_count +
        (process_file api N out (rows.take (j + 1))).stats.error_count +
        (process_file api N out (rows.take (j + 1))).stats.no_data_count =
        (process_file api N out (rows.take j)).stats.success_count +
          (process_file api N out (rows.take j)).stats.error_count +
          (process_file api N out (rows.take j)).stats.no_data_count + 1) ∧
      Stats.le (process_file api N out (rows.take j)).stats
        (process_file api N out (rows.take (j + 1))).stats) := by
  refine ⟨?_, ?_, ?_⟩
  · rw [process_file_stats]
    exact outcomeCount_sum api rows
  · intro n
    simp only [process_file_stats, Stats.le, outcomeCount, processedCount]
    exact ⟨countP_take_le _ n rows, countP_take_le _ n rows,
      countP_take_le _ n rows, countP_take_le _ n rows⟩
  · intro j hj
    constructor
    · simp only [process_file_stats, outcomeCount]
      rw [take_succ_of_lt rows j hj]
      simp only [List.countP_append, List.get_eq_getElem]
      cases hcl : classifyRow api rows[j] <;>
        simp [List.countP_cons, hcl, beq_iff_eq] <;> omega
    · simp only [process_file_stats, Stats.le, outcomeCount, processedCount]
      rw [take_succ_of_lt rows j hj]
      simp only [List.countP_append]
      omega

/-- C9 witness: the partition and per-row bump at a concrete one-row
run. -/
theorem C9_witness :
    (0 : Nat) < ([scenRow] : List Row).length ∧
    ((process_file scenApi SAVE_INTERVAL "out.xlsx"
        (([scenRow] : List Row).take (0 + 1))).stats.success_count +
      (process_file scenApi SAVE_INTERVAL "out.xlsx"
        (([scenRow] : List Row).take (0 + 1))).stats.error_count +
      (process_file scenApi SAVE_INTERVAL "out.xlsx"
        (([scenRow] : List Row).take (0 + 1))).stats.no_data_count =
      (process_file scenApi SAVE_INTERVAL "out.xlsx"
        (([scenRow] : List Row).take 0)).stats.success_count +
        (process_file scenApi SAVE_INTERVAL "out.xlsx"
          (([scenRow] : List Row).take 0)).stats.error_count +
        (process_file scenApi SAVE_INTERVAL "out.xlsx"
          (([scenRow] : List Row).take 0)).stats.no_data_count + 1) ∧
    Stats.le (process_file scenApi SAVE_INTERVAL "out.xlsx"
        (([scenRow] : List Row).take 0)).stats
      (process_file scenApi SAVE_INTERVAL "out.xlsx"
        (([scenRow] : List Row).take (0 + 1))).stats :=
  ⟨by decide,
    ((C9_outcome_partition scenApi SAVE_INTERVAL "out.xlsx"
        [scenRow]).2.2 0 (by decide)).1,
    ((C9_outcome_partition scenApi SAVE_INTERVAL "out.xlsx"
        [scenRow]).2.2 0 (by decide)).2⟩

end Laximo
